import Mathlib

/-!
Verification of the GCP Cloud Trace propagator
(`opentelemetry-contrib/src/trace/propagator/gcp.rs`).

Strings from the Rust side are modelled as `List Char`; machine integers
(`u64` span ids, `u128` trace ids) as `Nat` with explicit bounds where the
width matters.  Fallible Rust code returning `Result<_, ()>` is modelled as
`Except Unit _`.  Types of the `opentelemetry` API crate that the propagator
consumes but whose code is not part of this slice (`TraceId`, `SpanId`,
`SpanContext` accessors, `Context`) are modelled from the spec; each such
definition carries a doc comment saying so.
-/

namespace Gcp

/-- Unicode White_Space test, the semantics of Rust's `char::is_whitespace`
used by `str::trim` in `extract_span_context`. -/
def isRustWs (c : Char) : Bool :=
  (9 ≤ c.toNat && c.toNat ≤ 13) || c.toNat = 32 || c.toNat = 133 || c.toNat = 160 ||
  c.toNat = 0x1680 || (0x2000 ≤ c.toNat && c.toNat ≤ 0x200a) ||
  c.toNat = 0x2028 || c.toNat = 0x2029 || c.toNat = 0x202f || c.toNat = 0x205f ||
  c.toNat = 0x3000

/-- ASCII decimal digit, as accepted by Rust's `u64::from_str`. -/
def isDecDigit (c : Char) : Bool :=
  48 ≤ c.toNat && c.toNat ≤ 57

/-- Lowercase hexadecimal digit (`0-9a-f`). -/
def isLowerHexDigit (c : Char) : Bool :=
  isDecDigit c || (97 ≤ c.toNat && c.toNat ≤ 102)

/-- Numeric value of a (decimal or lowercase hex) digit character. -/
def digitVal (c : Char) : Nat :=
  if 97 ≤ c.toNat then c.toNat - 87 else c.toNat - 48

/-- The character for digit value `d < 16` (lowercase for `10..15`). -/
def digitChar (d : Nat) : Char :=
  Char.ofNat (if d < 10 then 48 + d else 87 + d)

/-- Numeric value of a digit string in base `b`, most significant digit
first: the accumulator fold used by integer parsing. -/
def valD (b : Nat) (cs : List Char) : Nat :=
  cs.foldl (fun a c => a * b + digitVal c) 0

/-- Decimal rendering, fuelled so that the recursion is structural; any
fuel above the number itself yields the digits, most significant first. -/
def decReprF : Nat → Nat → List Char
  | 0, _ => []
  | fuel + 1, n =>
    if n < 10 then [digitChar n]
    else decReprF fuel (n / 10) ++ [digitChar (n % 10)]

/-- Decimal rendering of a natural number, most significant digit first:
the semantics of Rust's `Display` for `u64` as used by `format!`. -/
def decRepr (n : Nat) : List Char :=
  decReprF (n + 1) n

/-- Lowercase hexadecimal rendering, fuelled so that the recursion is
structural; any fuel above the number itself yields the digits. -/
def hexReprF : Nat → Nat → List Char
  | 0, _ => []
  | fuel + 1, n =>
    if n < 16 then [digitChar n]
    else hexReprF fuel (n / 16) ++ [digitChar (n % 16)]

/-- Lowercase hexadecimal rendering of a natural number, most significant
digit first, without padding. -/
def hexRepr (n : Nat) : List Char :=
  hexReprF (n + 1) n

/-- Modelled from the spec: `TraceId::to_hex` of the `opentelemetry` API
crate (not part of this slice) — "trace id rendered as 32-character
lowercase hex, zero-padded". -/
def toHex32 (n : Nat) : List Char :=
  List.replicate (32 - (hexRepr n).length) '0' ++ hexRepr n

/-- Strip one leading plus sign, the sign handling of Rust's
`u64::from_str` (an unsigned type accepts an optional leading `+`). -/
def stripPlus : List Char → List Char
  | [] => []
  | c :: rest => if c = '+' then rest else c :: rest

/-- Rust's `str::parse::<u64>()`: optional leading `+`, then at least one
ASCII decimal digit, value below `2 ^ 64` (overflow is an error). -/
def parse_u64 (s : List Char) : Option Nat :=
  let digits := stripPlus s
  if digits.isEmpty then none
  else if digits.all isDecDigit then
    if valD 10 digits < 2 ^ 64 then some (valD 10 digits) else none
  else none

/-- Modelled from the spec: `TraceId::from_hex` of the `opentelemetry` API
crate (not part of this slice).  Spec: "The trace-id field must parse as 32
lowercase hex characters into a 128-bit value … Any other content (wrong
length, non-hex, or zero) is a decode failure."  The call site applies it
infallibly and then rejects the zero trace id, so malformed input is
collapsed to the zero value here, which the caller's zero check turns into
the decode failure the spec requires. -/
def traceId_from_hex (s : List Char) : Nat :=
  if s.length = 32 && s.all isLowerHexDigit then valD 16 s else 0

/-- Rust's `str::trim`: drop leading whitespace. -/
def trimLeft (s : List Char) : List Char :=
  s.dropWhile isRustWs

/-- Rust's `str::trim`: drop trailing whitespace. -/
def trimRight (s : List Char) : List Char :=
  (s.reverse.dropWhile isRustWs).reverse

/-- Rust's `str::trim`: drop whitespace from both ends. -/
def trim (s : List Char) : List Char :=
  trimRight (trimLeft s)

/-- Rust's `splitn(2, sep)` collected into a vector: the part before the
first separator, and — when a separator occurs — the remainder after it. -/
def splitFirst (sep : Char) : List Char → List Char × Option (List Char)
  | [] => ([], none)
  | c :: rest =>
    if c = sep then ([], some rest)
    else
      let p := splitFirst sep rest
      (c :: p.1, p.2)

/-- Modelled from the spec: the sampling decision of the `opentelemetry`
API crate (trace-flag constants `TRACE_FLAG_SAMPLED`,
`TRACE_FLAG_NOT_SAMPLED`, `TRACE_FLAG_DEFERRED`), "one of Sampled,
NotSampled, Deferred". -/
inductive SamplingDecision where
  | Sampled : SamplingDecision
  | NotSampled : SamplingDecision
  | Deferred : SamplingDecision
deriving DecidableEq, Repr

/-- Modelled from the spec: `SpanContext` of the `opentelemetry` API crate,
the "immutable tuple (TraceId, SpanId, SamplingDecision, is_remote,
trace_state)".  The trace id is a 128-bit value, the span id a 64-bit
value, both as `Nat`; the trace state is an association list, "always
empty for this format". -/
structure SpanContext where
  trace_id : Nat
  span_id : Nat
  trace_flags : SamplingDecision
  is_remote : Bool
  trace_state : List (String × String)
deriving DecidableEq, Repr

/-- Equality of decode results is decidable, so concrete decodes can be
checked by evaluation. -/
instance decEqExceptSpanContext : DecidableEq (Except Unit SpanContext) := by
  intro a b
  match a, b with
  | Except.error (), Except.error () => exact isTrue rfl
  | Except.ok x, Except.ok y =>
    match decEq x y with
    | isTrue h => exact isTrue (by rw [h])
    | isFalse h => exact isFalse (by intro hc; cases hc; exact h rfl)
  | Except.error (), Except.ok y => exact isFalse (by intro hc; cases hc)
  | Except.ok x, Except.error () => exact isFalse (by intro hc; cases hc)

/-- Modelled from the spec: `SpanContext::is_valid` of the `opentelemetry`
API crate.  Spec: the all-zero trace id is invalid, and for the span id
"No reserved invalid value is enforced by this component; validity is
inherited from TraceId." -/
def SpanContext.is_valid (sc : SpanContext) : Bool :=
  sc.trace_id != 0

/-- Modelled from the spec: `SpanContext::is_deferred` of the
`opentelemetry` API crate — whether the sampling decision is `Deferred`. -/
def SpanContext.is_deferred (sc : SpanContext) : Bool :=
  sc.trace_flags = SamplingDecision.Deferred

/-- Modelled from the spec: `SpanContext::is_sampled` of the
`opentelemetry` API crate — whether the sampling decision is `Sampled`. -/
def SpanContext.is_sampled (sc : SpanContext) : Bool :=
  sc.trace_flags = SamplingDecision.Sampled

/-- Modelled from the spec: `SpanContext::empty_context()` of the
`opentelemetry` API crate, the "sentinel empty context" substituted on
decode failure: zero ids, no explicit sampling, not remote, empty state. -/
def SpanContext.empty_context : SpanContext :=
  SpanContext.mk 0 0 SamplingDecision.NotSampled false []

/-- Modelled from the spec: the ambient `Context` of the `opentelemetry`
API crate, "holding the current span context among other data; the
propagator only reads/writes the span-context slot, never other slots".
The other slots are abstracted into one opaque field. -/
structure Context where
  span_context : SpanContext
  other_slots : Nat
deriving DecidableEq, Repr

/-- Modelled from the spec: `Context::with_remote_span_context` — "derive
new context with a replaced remote span context", leaving other slots
untouched. -/
def with_remote_span_context (cx : Context) (sc : SpanContext) : Context :=
  Context.mk sc cx.other_slots

/-- The fixed carrier key `GCP_CLOUD_TRACE_HEADER` = `x-cloud-trace-context`. -/
def GCP_CLOUD_TRACE_HEADER : String := "x-cloud-trace-context"

/-- The sampling-suffix match in `extract_span_context`:
`Some("o=0")` gives `NotSampled`, `Some("o=1")` gives `Sampled`, anything
else (an unrecognized suffix or no `;` at all) gives `Deferred`. -/
def decisionOfSuffix : Option (List Char) → SamplingDecision
  | some s =>
    if s = ['o', '=', '0'] then SamplingDecision.NotSampled
    else if s = ['o', '=', '1'] then SamplingDecision.Sampled
    else SamplingDecision.Deferred
  | none => SamplingDecision.Deferred

/-- Body of `CloudTracePropagator::extract_span_context` once the header
value has been read from the extractor: trim, split on the first `/`,
parse the trace id from the left field, split the remainder on the first
`;`, parse the span id as decimal, match the suffix, reject the zero
trace id, and build the span context with `is_remote = true` and the
default (empty) trace state. -/
def extract_header (header : List Char) : Except Unit SpanContext :=
  let header_value := trim header
  let p1 := splitFirst '/' header_value
  let trace_id := traceId_from_hex p1.1
  match p1.2 with
  | none => Except.error ()
  | some rest =>
    let p2 := splitFirst ';' rest
    match parse_u64 p2.1 with
    | none => Except.error ()
    | some parent_span_id =>
      let sampling_decision := decisionOfSuffix p2.2
      if trace_id = 0 then Except.error ()
      else Except.ok (SpanContext.mk trace_id parent_span_id sampling_decision true [])

/-- `CloudTracePropagator::extract_span_context`: reads the
`x-cloud-trace-context` key from the extractor (absence treated as the
empty string) and decodes it.  The extractor is modelled as its `get`
capability. -/
def extract_span_context (extractor : String → Option (List Char)) :
    Except Unit SpanContext :=
  extract_header ((extractor GCP_CLOUD_TRACE_HEADER).getD [])

/-- The string `format!("\x7b\x7d/\x7b\x7d;\x7b\x7d", trace_id, span_id,
sampling_decision)` composed by `inject_context`: hex trace id, `/`,
decimal span id, `;`, then the suffix — `""` when deferred, `"o=1"` when
sampled, `"o=0"` otherwise.  Note the `;` is part of the format string and
is always emitted. -/
def inject_header (sc : SpanContext) : List Char :=
  toHex32 sc.trace_id ++ '/' :: decRepr sc.span_id ++ ';' ::
    (if sc.is_deferred then []
     else if sc.is_sampled then ['o', '=', '1']
     else ['o', '=', '0'])

/-- `CloudTracePropagator::inject_context`: when the active span context is
valid, one `set` call writing the formatted header under the fixed key;
when it is not, no call at all.  The injector is modelled as the list of
`set` calls performed, in order. -/
def inject_context (cx : Context) : List (String × List Char) :=
  let span_context := cx.span_context
  if span_context.is_valid then
    [(GCP_CLOUD_TRACE_HEADER, inject_header span_context)]
  else []

/-- `CloudTracePropagator::extract_with_context`: decode, substitute the
empty span context on failure, and attach the result to the input context
as the remote span context. -/
def extract_with_context (cx : Context) (extractor : String → Option (List Char)) :
    Context :=
  let extracted :=
    match extract_span_context extractor with
    | Except.ok sc => sc
    | Except.error _ => SpanContext.empty_context
  with_remote_span_context cx extracted

/-! Digit-level facts. -/

theorem digitVal_digitChar : ∀ d, d < 16 → digitVal (digitChar d) = d := by decide

theorem isDecDigit_digitChar : ∀ d, d < 10 → isDecDigit (digitChar d) = true := by decide

theorem isLowerHexDigit_digitChar : ∀ d, d < 16 → isLowerHexDigit (digitChar d) = true := by
  decide

theorem isRustWs_eq_false_of_hex {c : Char} (h : isLowerHexDigit c = true) :
    isRustWs c = false := by
  cases hw : isRustWs c
  · rfl
  · exfalso
    simp only [isLowerHexDigit, isDecDigit, Bool.or_eq_true, Bool.and_eq_true,
      decide_eq_true_eq] at h
    simp only [isRustWs, Bool.or_eq_true, Bool.and_eq_true, decide_eq_true_eq] at hw
    omega

theorem isRustWs_eq_false_of_dec {c : Char} (h : isDecDigit c = true) :
    isRustWs c = false := by
  apply isRustWs_eq_false_of_hex
  simp only [isLowerHexDigit, h, Bool.true_or]

theorem hex_ne_slash {c : Char} (h : isLowerHexDigit c = true) : c ≠ '/' := by
  intro he
  subst he
  exact absurd h (by decide)

theorem dec_ne_semicolon {c : Char} (h : isDecDigit c = true) : c ≠ ';' := by
  intro he
  subst he
  exact absurd h (by decide)

theorem dec_ne_plus {c : Char} (h : isDecDigit c = true) : c ≠ '+' := by
  intro he
  subst he
  exact absurd h (by decide)

/-! Digit-string values and renderings. -/

theorem valD_singleton (b : Nat) (c : Char) : valD b [c] = digitVal c := by
  simp [valD]

theorem valD_append_singleton (b : Nat) (cs : List Char) (c : Char) :
    valD b (cs ++ [c]) = valD b cs * b + digitVal c := by
  simp [valD, List.foldl_append]

theorem valD_decReprF : ∀ fuel n : Nat, n < fuel → valD 10 (decReprF fuel n) = n := by
  intro fuel
  induction fuel with
  | zero => omega
  | succ fuel ih =>
    intro n h
    rw [decReprF]
    split
    · rw [valD_singleton, digitVal_digitChar n (by omega)]
    · rw [valD_append_singleton, ih (n / 10) (by omega),
        digitVal_digitChar (n % 10) (by omega)]
      omega

theorem valD_decRepr (n : Nat) : valD 10 (decRepr n) = n :=
  valD_decReprF (n + 1) n (by omega)

theorem valD_hexReprF : ∀ fuel n : Nat, n < fuel → valD 16 (hexReprF fuel n) = n := by
  intro fuel
  induction fuel with
  | zero => omega
  | succ fuel ih =>
    intro n h
    rw [hexReprF]
    split
    · rw [valD_singleton, digitVal_digitChar n (by omega)]
    · rw [valD_append_singleton, ih (n / 16) (by omega),
        digitVal_digitChar (n % 16) (by omega)]
      omega

theorem valD_hexRepr (n : Nat) : valD 16 (hexRepr n) = n :=
  valD_hexReprF (n + 1) n (by omega)

theorem decRepr_ne_nil (n : Nat) : decRepr n ≠ [] := by
  rw [decRepr, decReprF]
  split
  · simp
  · simp

theorem decReprF_all : ∀ fuel n : Nat, n < fuel → (decReprF fuel n).all isDecDigit = true := by
  intro fuel
  induction fuel with
  | zero => omega
  | succ fuel ih =>
    intro n h
    rw [decReprF]
    split
    · simp [isDecDigit_digitChar n (by omega)]
    · rw [List.all_append]
      simp [ih (n / 10) (by omega), isDecDigit_digitChar (n % 10) (by omega)]

theorem decRepr_all (n : Nat) : (decRepr n).all isDecDigit = true :=
  decReprF_all (n + 1) n (by omega)

theorem hexReprF_all : ∀ fuel n : Nat, n < fuel →
    (hexReprF fuel n).all isLowerHexDigit = true := by
  intro fuel
  induction fuel with
  | zero => omega
  | succ fuel ih =>
    intro n h
    rw [hexReprF]
    split
    · simp [isLowerHexDigit_digitChar n (by omega)]
    · rw [List.all_append]
      simp [ih (n / 16) (by omega), isLowerHexDigit_digitChar (n % 16) (by omega)]

theorem hexRepr_all (n : Nat) : (hexRepr n).all isLowerHexDigit = true :=
  hexReprF_all (n + 1) n (by omega)

theorem hexReprF_length_le : ∀ fuel k n : Nat, n < fuel → 0 < k → n < 16 ^ k →
    (hexReprF fuel n).length ≤ k := by
  intro fuel
  induction fuel with
  | zero => omega
  | succ fuel ih =>
    intro k n h hk hn
    rw [hexReprF]
    split
    · simp
      omega
    · next hge =>
      have hk2 : 2 ≤ k := by
        by_contra hcon
        have hk1 : k = 1 := by omega
        subst hk1
        have h16 : (16 : Nat) ^ 1 = 16 := by norm_num
        omega
      have hpow : (16 : Nat) ^ k = 16 ^ (k - 1) * 16 := by
        rw [← pow_succ]
        congr 1
        omega
      have hdiv : n / 16 < 16 ^ (k - 1) := by
        rw [Nat.div_lt_iff_lt_mul (by omega)]
        omega
      have := ih (k - 1) (n / 16) (by omega) (by omega) hdiv
      simp only [List.length_append, List.length_cons, List.length_nil]
      omega

/-! Padded hex rendering and the trace-id parse. -/

theorem foldl_replicate_zero (b m : Nat) :
    List.foldl (fun a c => a * b + digitVal c) 0 (List.replicate m '0') = 0 := by
  induction m with
  | zero => rfl
  | succ m ih =>
    rw [List.replicate_succ, List.foldl_cons]
    have h0 : (0 * b + digitVal '0') = 0 := by
      simp [digitVal]
    rw [h0, ih]

theorem valD_replicate_zero_append (b m : Nat) (cs : List Char) :
    valD b (List.replicate m '0' ++ cs) = valD b cs := by
  rw [valD, List.foldl_append, foldl_replicate_zero]
  rfl

theorem hexRepr_length_le (k n : Nat) (hk : 0 < k) (hn : n < 16 ^ k) :
    (hexRepr n).length ≤ k :=
  hexReprF_length_le (n + 1) k n (by omega) hk hn

theorem toHex32_length {n : Nat} (h : n < 2 ^ 128) : (toHex32 n).length = 32 := by
  have h16 : (16 : Nat) ^ 32 = 2 ^ 128 := by norm_num
  have hlen : (hexRepr n).length ≤ 32 := hexRepr_length_le 32 n (by omega) (by omega)
  simp only [toHex32, List.length_append, List.length_replicate]
  omega

theorem toHex32_all (n : Nat) : (toHex32 n).all isLowerHexDigit = true := by
  rw [toHex32, List.all_append]
  have hrep : (List.replicate (32 - (hexRepr n).length) '0').all isLowerHexDigit = true := by
    rw [List.all_eq_true]
    intro x hx
    rw [List.mem_replicate] at hx
    rw [hx.2]
    decide
  rw [hrep, hexRepr_all]
  rfl

theorem traceId_from_hex_toHex32 {n : Nat} (h : n < 2 ^ 128) :
    traceId_from_hex (toHex32 n) = n := by
  rw [traceId_from_hex, if_pos]
  · rw [toHex32, valD_replicate_zero_append, valD_hexRepr]
  · rw [toHex32_length h, toHex32_all]
    simp

theorem traceId_from_hex_lt (s : List Char) : traceId_from_hex s = 0 ∨
    (s.length = 32 ∧ s.all isLowerHexDigit = true ∧ traceId_from_hex s = valD 16 s) := by
  rw [traceId_from_hex]
  split
  · next hc =>
    simp only [Bool.and_eq_true, decide_eq_true_eq] at hc
    exact Or.inr ⟨hc.1, hc.2, rfl⟩
  · exact Or.inl rfl

/-! Decimal parsing. -/

theorem stripPlus_cons_of_ne {c : Char} {cs : List Char} (h : c ≠ '+') :
    stripPlus (c :: cs) = c :: cs := by
  simp [stripPlus, h]

theorem stripPlus_of_all_digits {s : List Char} (h : s.all isDecDigit = true) :
    stripPlus s = s := by
  cases s with
  | nil => rfl
  | cons c cs =>
    rw [List.all_cons, Bool.and_eq_true] at h
    exact stripPlus_cons_of_ne (dec_ne_plus h.1)

theorem parse_u64_of_all_digits {s : List Char} (hne : s ≠ [])
    (hall : s.all isDecDigit = true) (hlt : valD 10 s < 2 ^ 64) :
    parse_u64 s = some (valD 10 s) := by
  rw [parse_u64]
  simp only [stripPlus_of_all_digits hall]
  rw [if_neg, if_pos hall, if_pos hlt]
  simp [List.isEmpty_iff, hne]

theorem parse_u64_some {s : List Char} {n : Nat} (h : parse_u64 s = some n) :
    stripPlus s ≠ [] ∧ (stripPlus s).all isDecDigit = true ∧
      valD 10 (stripPlus s) = n ∧ n < 2 ^ 64 := by
  rw [parse_u64] at h
  by_cases he : (stripPlus s).isEmpty = true
  · rw [if_pos he] at h
    exact absurd h (by simp)
  · rw [if_neg he] at h
    by_cases ha : (stripPlus s).all isDecDigit = true
    · rw [if_pos ha] at h
      by_cases hv : valD 10 (stripPlus s) < 2 ^ 64
      · rw [if_pos hv] at h
        have hn : valD 10 (stripPlus s) = n := by injection h
        exact ⟨by simpa [List.isEmpty_iff] using he, ha, hn, hn ▸ hv⟩
      · rw [if_neg hv] at h
        exact absurd h (by simp)
    · rw [if_neg ha] at h
      exact absurd h (by simp)

theorem parse_u64_decRepr {n : Nat} (h : n < 2 ^ 64) : parse_u64 (decRepr n) = some n := by
  have := parse_u64_of_all_digits (decRepr_ne_nil n) (decRepr_all n)
    (by rw [valD_decRepr]; exact h)
  rw [valD_decRepr] at this
  exact this

theorem parse_u64_plus_of_all_digits {s : List Char} {n : Nat}
    (hall : s.all isDecDigit = true) (h : parse_u64 s = some n) :
    parse_u64 ('+' :: s) = some n := by
  obtain ⟨hne, -, hv, hlt⟩ := parse_u64_some h
  rw [stripPlus_of_all_digits hall] at hne hv
  rw [parse_u64]
  have hstrip : stripPlus ('+' :: s) = s := by simp [stripPlus]
  simp only [hstrip]
  rw [if_neg (by simp [List.isEmpty_iff, hne]), if_pos hall, if_pos (hv ▸ hlt), hv]

/-! Splitting on the first separator. -/

theorem splitFirst_append {sep : Char} {a : List Char} (b : List Char) (h : sep ∉ a) :
    splitFirst sep (a ++ sep :: b) = (a, some b) := by
  induction a with
  | nil => simp [splitFirst]
  | cons c cs ih =>
    have hc : ¬c = sep := fun he => h (he ▸ List.mem_cons_self c cs)
    have hcs : sep ∉ cs := fun hm => h (List.mem_cons_of_mem c hm)
    simp only [List.cons_append, splitFirst, if_neg hc, List.append_eq, ih hcs]

theorem splitFirst_of_not_mem {sep : Char} {s : List Char} (h : sep ∉ s) :
    splitFirst sep s = (s, none) := by
  induction s with
  | nil => rfl
  | cons c cs ih =>
    have hc : ¬c = sep := fun he => h (he ▸ List.mem_cons_self c cs)
    have hcs : sep ∉ cs := fun hm => h (List.mem_cons_of_mem c hm)
    simp only [splitFirst, if_neg hc, ih hcs]

theorem splitFirst_eq_some {sep : Char} {s r : List Char}
    (h : (splitFirst sep s).2 = some r) :
    s = (splitFirst sep s).1 ++ sep :: r ∧ sep ∉ (splitFirst sep s).1 := by
  induction s generalizing r with
  | nil => exact absurd h (by simp [splitFirst])
  | cons c cs ih =>
    by_cases hc : c = sep
    · subst hc
      simp only [splitFirst, if_pos rfl] at h ⊢
      injection h with h
      subst h
      exact ⟨rfl, List.not_mem_nil c⟩
    · simp only [splitFirst, if_neg hc] at h ⊢
      obtain ⟨h1, h2⟩ := ih h
      constructor
      · conv_lhs => rw [h1]
        rw [List.cons_append]
      · intro hm
        rcases List.mem_cons.1 hm with he | hm2
        · exact hc he.symm
        · exact h2 hm2

theorem splitFirst_cons_of_ne {sep c : Char} {cs : List Char} (h : ¬c = sep) :
    splitFirst sep (c :: cs) = (c :: (splitFirst sep cs).1, (splitFirst sep cs).2) := by
  simp only [splitFirst, if_neg h]

/-! Trimming. -/

theorem head?_dropWhile_false {p : Char → Bool} {l : List Char} {c : Char}
    (h : (List.dropWhile p l).head? = some c) : p c = false := by
  induction l with
  | nil => exact absurd h (by simp)
  | cons a as ih =>
    rw [List.dropWhile_cons] at h
    by_cases hp : p a = true
    · rw [if_pos hp] at h
      exact ih h
    · rw [if_neg hp] at h
      rw [List.head?_cons] at h
      injection h with h
      subst h
      simpa using hp

theorem exists_append_dropWhile (p : Char → Bool) (l : List Char) :
    ∃ w, l = w ++ List.dropWhile p l := by
  induction l with
  | nil => exact ⟨[], rfl⟩
  | cons c cs ih =>
    rw [List.dropWhile_cons]
    by_cases hp : p c = true
    · obtain ⟨w, hw⟩ := ih
      refine ⟨c :: w, ?_⟩
      rw [if_pos hp, List.cons_append, ← hw]
    · exact ⟨[], by rw [if_neg hp]; rfl⟩

theorem trimLeft_eq_self {s : List Char}
    (h : ∀ c, s.head? = some c → isRustWs c = false) : trimLeft s = s := by
  cases s with
  | nil => rfl
  | cons c cs =>
    rw [trimLeft, List.dropWhile_cons, if_neg]
    rw [h c (by rw [List.head?_cons])]
    simp

theorem trimRight_eq_self {s : List Char}
    (h : ∀ c, s.getLast? = some c → isRustWs c = false) : trimRight s = s := by
  rw [trimRight]
  cases hs : s.reverse with
  | nil =>
    have : s = [] := by
      have := congrArg List.reverse hs
      rwa [List.reverse_reverse] at this
    subst this
    rfl
  | cons c cs =>
    have hc : s.getLast? = some c := by
      rw [← List.head?_reverse, hs, List.head?_cons]
    rw [List.dropWhile_cons, if_neg (by rw [h c hc]; simp), ← hs, List.reverse_reverse]

theorem trim_eq_self {s : List Char}
    (h1 : ∀ c, s.head? = some c → isRustWs c = false)
    (h2 : ∀ c, s.getLast? = some c → isRustWs c = false) : trim s = s := by
  rw [trim, trimLeft_eq_self h1, trimRight_eq_self h2]

theorem trim_eq_self_of_forall {s : List Char}
    (h : ∀ c ∈ s, isRustWs c = false) : trim s = s := by
  apply trim_eq_self
  · intro c hc
    apply h
    cases s with
    | nil => exact absurd hc (by simp)
    | cons a as =>
      rw [List.head?_cons] at hc
      injection hc with hc
      subst hc
      exact List.mem_cons_self a as
  · intro c hc
    exact h c (List.mem_of_mem_getLast? hc)

theorem trim_getLast?_not_ws {s : List Char} {c : Char}
    (h : (trim s).getLast? = some c) : isRustWs c = false := by
  rw [trim, trimRight, List.getLast?_reverse] at h
  exact head?_dropWhile_false h

theorem trimRight_head? {t : List Char} {c : Char}
    (h : (trimRight t).head? = some c) : t.head? = some c := by
  obtain ⟨w, hw⟩ := exists_append_dropWhile isRustWs t.reverse
  have ht : t = trimRight t ++ w.reverse := by
    rw [trimRight]
    conv_lhs => rw [← List.reverse_reverse t, hw]
    rw [List.reverse_append]
  rw [ht]
  cases htr : trimRight t with
  | nil => rw [htr] at h; exact absurd h (by simp)
  | cons a u =>
    rw [htr] at h
    rw [List.cons_append, List.head?_cons]
    rw [List.head?_cons] at h
    exact h

theorem trim_head?_not_ws {s : List Char} {c : Char}
    (h : (trim s).head? = some c) : isRustWs c = false := by
  rw [trim] at h
  have := trimRight_head? h
  rw [trimLeft] at this
  exact head?_dropWhile_false this

theorem mem_trim {s : List Char} {c : Char} (h : c ∈ trim s) : c ∈ s := by
  obtain ⟨w1, hw1⟩ := exists_append_dropWhile isRustWs s
  obtain ⟨w2, hw2⟩ := exists_append_dropWhile isRustWs (trimLeft s).reverse
  have ht : trimLeft s = (trim s).reverse.reverse ++ w2.reverse := by
    rw [trim, trimRight, List.reverse_reverse]
    conv_lhs => rw [← List.reverse_reverse (trimLeft s), hw2]
    rw [List.reverse_append]
  rw [List.reverse_reverse] at ht
  have h1 : c ∈ trimLeft s := by
    rw [ht]
    exact List.mem_append_left _ h
  rw [trimLeft] at h1
  conv_rhs at h1 => skip
  have : c ∈ w1 ++ List.dropWhile isRustWs s := List.mem_append_right _ h1
  rw [← hw1] at this
  exact this

/-! Characterizing the decoder. -/

theorem extract_header_error_of_no_slash {s : List Char}
    (h : (splitFirst '/' (trim s)).2 = none) : extract_header s = Except.error () := by
  simp only [extract_header, h]

theorem extract_header_error_of_bad_span {s rest : List Char}
    (h : (splitFirst '/' (trim s)).2 = some rest)
    (hp : parse_u64 (splitFirst ';' rest).1 = none) :
    extract_header s = Except.error () := by
  simp only [extract_header, h, hp]

theorem extract_header_error_of_trace_zero {s : List Char}
    (h : traceId_from_hex (splitFirst '/' (trim s)).1 = 0) :
    extract_header s = Except.error () := by
  simp only [extract_header, h]
  cases hm : (splitFirst '/' (trim s)).2 with
  | none => simp
  | some rest =>
    cases hp : parse_u64 (splitFirst ';' rest).1 with
    | none => simp [hp]
    | some sid => simp [hp]

theorem extract_header_eq_ok {s rest : List Char} {sid : Nat}
    (h : (splitFirst '/' (trim s)).2 = some rest)
    (hp : parse_u64 (splitFirst ';' rest).1 = some sid)
    (ht : traceId_from_hex (splitFirst '/' (trim s)).1 ≠ 0) :
    extract_header s = Except.ok (SpanContext.mk
      (traceId_from_hex (splitFirst '/' (trim s)).1) sid
      (decisionOfSuffix (splitFirst ';' rest).2) true []) := by
  simp only [extract_header, h, hp, if_neg ht]

theorem extract_header_ok_elim {s : List Char} {sc : SpanContext}
    (h : extract_header s = Except.ok sc) :
    ∃ rest, (splitFirst '/' (trim s)).2 = some rest ∧
      parse_u64 (splitFirst ';' rest).1 = some sc.span_id ∧
      traceId_from_hex (splitFirst '/' (trim s)).1 = sc.trace_id ∧
      sc.trace_id ≠ 0 ∧
      sc.trace_flags = decisionOfSuffix (splitFirst ';' rest).2 ∧
      sc.is_remote = true ∧ sc.trace_state = [] := by
  cases hm : (splitFirst '/' (trim s)).2 with
  | none => rw [extract_header_error_of_no_slash hm] at h; exact absurd h (by simp)
  | some rest =>
    cases hp : parse_u64 (splitFirst ';' rest).1 with
    | none => rw [extract_header_error_of_bad_span hm hp] at h; exact absurd h (by simp)
    | some sid =>
      by_cases ht : traceId_from_hex (splitFirst '/' (trim s)).1 = 0
      · rw [extract_header_error_of_trace_zero ht] at h
        exact absurd h (by simp)
      · rw [extract_header_eq_ok hm hp ht] at h
        injection h with h
        subst h
        exact ⟨rest, rfl, hp, rfl, ht, rfl, rfl, rfl⟩

/-! Claim C1. -/

/-- C1, counterexample: at the valid Deferred context with trace id 1 and
span id 1, `inject_context` writes `…0001/1;` — with a trailing `;` — and
that value differs from the claimed exact form `…0001/1` with no `;`. -/
theorem C1_counterexample :
    inject_context (Context.mk (SpanContext.mk 1 1 SamplingDecision.Deferred true []) 0) =
      [(GCP_CLOUD_TRACE_HEADER, "00000000000000000000000000000001/1;".toList)] ∧
    "00000000000000000000000000000001/1;".toList ≠
      "00000000000000000000000000000001/1".toList := by
  constructor
  · decide
  · decide

/-- C1 (amended): when the active span context is valid and its sampling
decision is Deferred, `inject_context` writes the header as
`trace_id/span_id;` — the `;` separator is still emitted, followed by an
empty suffix. -/
theorem C1_amended_deferred_header (cx : Context)
    (hv : cx.span_context.is_valid = true)
    (hd : cx.span_context.is_deferred = true) :
    inject_context cx = [(GCP_CLOUD_TRACE_HEADER,
      toHex32 cx.span_context.trace_id ++
        '/' :: (decRepr cx.span_context.span_id ++ [';']))] := by
  simp [inject_context, inject_header, hv, hd]

/-- C1 witness: the amended claim at the Deferred context with trace id 1
and span id 1. -/
theorem C1_witness :
    (SpanContext.mk 1 1 SamplingDecision.Deferred true []).is_valid = true ∧
    (SpanContext.mk 1 1 SamplingDecision.Deferred true []).is_deferred = true ∧
    inject_context (Context.mk (SpanContext.mk 1 1 SamplingDecision.Deferred true []) 0) =
      [(GCP_CLOUD_TRACE_HEADER,
        toHex32 1 ++ '/' :: (decRepr 1 ++ [';']))] :=
  ⟨by decide, by decide,
    C1_amended_deferred_header
      (Context.mk (SpanContext.mk 1 1 SamplingDecision.Deferred true []) 0)
      (by decide) (by decide)⟩

/-! Claim C2. -/

/-- C2: any header whose trace-id field — the part before the first `/` of
the trimmed header value — is not exactly 32 lowercase hex characters is a
decode failure. -/
theorem C2_short_or_nonhex_trace_id_fails (s : List Char)
    (h : ¬((splitFirst '/' (trim s)).1.length = 32 ∧
      (splitFirst '/' (trim s)).1.all isLowerHexDigit = true)) :
    extract_header s = Except.error () := by
  apply extract_header_error_of_trace_zero
  rcases traceId_from_hex_lt (splitFirst '/' (trim s)).1 with h0 | ⟨hl, ha, -⟩
  · exact h0
  · exact absurd ⟨hl, ha⟩ h

/-- C2 witness: the 16-hex-character trace-id field `00f067aa0ba902b7`
fails to decode. -/
theorem C2_witness :
    ¬((splitFirst '/' (trim "00f067aa0ba902b7/5".toList)).1.length = 32 ∧
      (splitFirst '/' (trim "00f067aa0ba902b7/5".toList)).1.all isLowerHexDigit = true) ∧
    extract_header "00f067aa0ba902b7/5".toList = Except.error () :=
  ⟨by decide, C2_short_or_nonhex_trace_id_fails "00f067aa0ba902b7/5".toList (by decide)⟩

/-! Claim C4. -/

/-- C4: `extract_with_context` is total, and on a decode failure it returns
a new context whose span-context slot holds the empty span context — the
input context's prior span context is replaced, and its other slots are
preserved unchanged. -/
theorem C4_failure_attaches_empty_context (cx : Context)
    (extractor : String → Option (List Char))
    (h : extract_span_context extractor = Except.error ()) :
    extract_with_context cx extractor =
      Context.mk SpanContext.empty_context cx.other_slots := by
  simp only [extract_with_context, h, with_remote_span_context]

/-- C4 witness: a context with a non-empty prior span context plus an
absent header yields the empty span context, other slots intact. -/
theorem C4_witness :
    extract_span_context (fun _ => none) = Except.error () ∧
    extract_with_context
        (Context.mk (SpanContext.mk 5 6 SamplingDecision.Sampled true []) 7)
        (fun _ => none) =
      Context.mk SpanContext.empty_context 7 :=
  ⟨by decide,
    C4_failure_attaches_empty_context
      (Context.mk (SpanContext.mk 5 6 SamplingDecision.Sampled true []) 7)
      (fun _ => none) (by decide)⟩

/-! Claim C5. -/

/-- C5: when the active span context is valid, `inject_context` performs
exactly one carrier write, under the key `x-cloud-trace-context`; when it
is invalid, it performs no write at all. -/
theorem C5_write_counts (cx : Context) :
    (cx.span_context.is_valid = true →
      inject_context cx =
        [(GCP_CLOUD_TRACE_HEADER, inject_header cx.span_context)]) ∧
    (cx.span_context.is_valid = false → inject_context cx = []) := by
  constructor
  · intro h
    simp [inject_context, h]
  · intro h
    simp [inject_context, h]

/-- C5 witness: one write for a valid context, no write for a zero trace
id. -/
theorem C5_witness :
    ((SpanContext.mk 1 2 SamplingDecision.Sampled true []).is_valid = true ∧
      inject_context (Context.mk (SpanContext.mk 1 2 SamplingDecision.Sampled true []) 0) =
        [(GCP_CLOUD_TRACE_HEADER,
          inject_header (SpanContext.mk 1 2 SamplingDecision.Sampled true []))]) ∧
    ((SpanContext.mk 0 2 SamplingDecision.Sampled true []).is_valid = false ∧
      inject_context (Context.mk (SpanContext.mk 0 2 SamplingDecision.Sampled true []) 0) = []) :=
  ⟨⟨by decide,
      (C5_write_counts (Context.mk (SpanContext.mk 1 2 SamplingDecision.Sampled true []) 0)).1
        (by decide)⟩,
    ⟨by decide,
      (C5_write_counts (Context.mk (SpanContext.mk 0 2 SamplingDecision.Sampled true []) 0)).2
        (by decide)⟩⟩

/-! Claim C6. -/

/-- C6: any header whose trace-id field parses to the all-zero value is a
decode failure, regardless of the span-id and suffix fields. -/
theorem C6_zero_trace_id_fails (s : List Char)
    (h : traceId_from_hex (splitFirst '/' (trim s)).1 = 0) :
    extract_header s = Except.error () :=
  extract_header_error_of_trace_zero h

/-- C6 witness: the all-zero trace id with valid span id and suffix
fails. -/
theorem C6_witness :
    traceId_from_hex
      (splitFirst '/' (trim "00000000000000000000000000000000/1;o=1".toList)).1 = 0 ∧
    extract_header "00000000000000000000000000000000/1;o=1".toList = Except.error () :=
  ⟨by decide,
    C6_zero_trace_id_fails "00000000000000000000000000000000/1;o=1".toList (by decide)⟩

/-! Claim C7. -/

/-- C7: when the carrier's header value (the empty string when the header
is absent) contains no `/` character, extraction is a decode failure. -/
theorem C7_no_slash_fails (extractor : String → Option (List Char))
    (h : '/' ∉ (extractor GCP_CLOUD_TRACE_HEADER).getD []) :
    extract_span_context extractor = Except.error () := by
  rw [extract_span_context]
  apply extract_header_error_of_no_slash
  have hnm : '/' ∉ trim ((extractor GCP_CLOUD_TRACE_HEADER).getD []) :=
    fun hm => h (mem_trim hm)
  rw [splitFirst_of_not_mem hnm]

/-- C7 witness: the header value `abc` fails. -/
theorem C7_witness :
    '/' ∉ ((fun _ => some ['a', 'b', 'c']) GCP_CLOUD_TRACE_HEADER :
      Option (List Char)).getD [] ∧
    extract_span_context (fun _ => some ['a', 'b', 'c']) = Except.error () :=
  ⟨by decide, C7_no_slash_fails (fun _ => some ['a', 'b', 'c']) (by decide)⟩

/-! Claim C8. -/

/-- C8: every successful decode has `is_remote = true`, the default empty
trace state, and a sampling decision read literally off the suffix after
the first `;` of the remainder (`o=0` ↦ NotSampled, `o=1` ↦ Sampled,
anything else — an unrecognized suffix or no `;` at all — ↦ Deferred,
which is what `decisionOfSuffix` computes). -/
theorem C8_decode_output_shape (s : List Char) (sc : SpanContext)
    (h : extract_header s = Except.ok sc) :
    sc.is_remote = true ∧ sc.trace_state = [] ∧
    sc.trace_flags =
      decisionOfSuffix (splitFirst ';' ((splitFirst '/' (trim s)).2.getD [])).2 := by
  obtain ⟨rest, hm, -, -, -, hf, hr, hts⟩ := extract_header_ok_elim h
  rw [hm]
  simp only [Option.getD_some]
  exact ⟨hr, hts, hf⟩

/-- C8 witness: the unrecognized suffix `x=9` decodes with a Deferred
decision, remote flag set and empty trace state. -/
theorem C8_witness :
    extract_header "105445aa7843bc8bf206b12000100000/1;x=9".toList =
      Except.ok (SpanContext.mk 21705213860945948472365733417594126336 1
        SamplingDecision.Deferred true []) ∧
    ((SpanContext.mk 21705213860945948472365733417594126336 1
        SamplingDecision.Deferred true []).is_remote = true ∧
      (SpanContext.mk 21705213860945948472365733417594126336 1
        SamplingDecision.Deferred true []).trace_state = [] ∧
      (SpanContext.mk 21705213860945948472365733417594126336 1
        SamplingDecision.Deferred true []).trace_flags =
        decisionOfSuffix (splitFirst ';'
          ((splitFirst '/' (trim "105445aa7843bc8bf206b12000100000/1;x=9".toList)).2.getD
            [])).2) :=
  ⟨by decide,
    C8_decode_output_shape "105445aa7843bc8bf206b12000100000/1;x=9".toList
      (SpanContext.mk 21705213860945948472365733417594126336 1
        SamplingDecision.Deferred true []) (by decide)⟩

/-! Claim C9. -/

/-- C9: extraction is a total function of the carrier's header value — for
every extractor it yields either a success or the single failure value
(never an exception, there being no other outcome), and its result depends
only on the value stored under the `x-cloud-trace-context` key. -/
theorem C9_total_function_of_header (extractor : String → Option (List Char)) :
    ((∃ sc, extract_span_context extractor = Except.ok sc) ∨
      extract_span_context extractor = Except.error ()) ∧
    (∀ extractor₂ : String → Option (List Char),
      extractor GCP_CLOUD_TRACE_HEADER = extractor₂ GCP_CLOUD_TRACE_HEADER →
      extract_span_context extractor = extract_span_context extractor₂) := by
  constructor
  · cases hx : extract_span_context extractor with
    | ok sc => exact Or.inl ⟨sc, rfl⟩
    | error e => cases e; exact Or.inr rfl
  · intro extractor₂ he
    rw [extract_span_context, extract_span_context, he]

/-- C9 witness: at a concrete extractor the disjunction holds, and a second
extractor agreeing on the key gives the same result. -/
theorem C9_witness :
    ((∃ sc, extract_span_context (fun _ => some ['a']) = Except.ok sc) ∨
      extract_span_context (fun _ => some ['a']) = Except.error ()) ∧
    extract_span_context (fun _ => some ['a']) =
      extract_span_context
        (fun k => if k = GCP_CLOUD_TRACE_HEADER then some ['a'] else none) :=
  ⟨(C9_total_function_of_header (fun _ => some ['a'])).1,
    (C9_total_function_of_header (fun _ => some ['a'])).2
      (fun k => if k = GCP_CLOUD_TRACE_HEADER then some ['a'] else none) (by decide)⟩

/-! Claim C3. -/

/-- Decoding an encoded header of the canonical shape recovers the trace
id, span id and the decision carried by the suffix. -/
theorem extract_encode (tid sid : Nat) (suf : List Char) (h0 : tid ≠ 0)
    (h128 : tid < 2 ^ 128) (h64 : sid < 2 ^ 64)
    (hws : ∀ c ∈ suf, isRustWs c = false) :
    extract_header (toHex32 tid ++ '/' :: (decRepr sid ++ ';' :: suf)) =
      Except.ok (SpanContext.mk tid sid (decisionOfSuffix (some suf)) true []) := by
  have hhexall := toHex32_all tid
  have hdecall := decRepr_all sid
  have htr : trim (toHex32 tid ++ '/' :: (decRepr sid ++ ';' :: suf)) =
      toHex32 tid ++ '/' :: (decRepr sid ++ ';' :: suf) := by
    apply trim_eq_self_of_forall
    intro c hc
    simp only [List.mem_append, List.mem_cons] at hc
    rcases hc with hc | hc | hc | hc | hc
    · exact isRustWs_eq_false_of_hex (List.all_eq_true.1 hhexall c hc)
    · subst hc; decide
    · exact isRustWs_eq_false_of_dec (List.all_eq_true.1 hdecall c hc)
    · subst hc; decide
    · exact hws c hc
  have hslash : '/' ∉ toHex32 tid := fun hm =>
    hex_ne_slash (List.all_eq_true.1 hhexall '/' hm) rfl
  have hsemi : ';' ∉ decRepr sid := fun hm =>
    dec_ne_semicolon (List.all_eq_true.1 hdecall ';' hm) rfl
  have hsp1 := splitFirst_append (decRepr sid ++ ';' :: suf) hslash
  have hsp2 := splitFirst_append suf hsemi
  have hm : (splitFirst '/' (trim (toHex32 tid ++ '/' :: (decRepr sid ++ ';' :: suf)))).2 =
      some (decRepr sid ++ ';' :: suf) := by
    rw [htr, hsp1]
  have hfield : (splitFirst '/' (trim (toHex32 tid ++ '/' :: (decRepr sid ++ ';' :: suf)))).1 =
      toHex32 tid := by
    rw [htr, hsp1]
  have hp : parse_u64 (splitFirst ';' (decRepr sid ++ ';' :: suf)).1 = some sid := by
    rw [hsp2]
    exact parse_u64_decRepr h64
  have ht : traceId_from_hex
      (splitFirst '/' (trim (toHex32 tid ++ '/' :: (decRepr sid ++ ';' :: suf)))).1 ≠ 0 := by
    rw [hfield, traceId_from_hex_toHex32 h128]
    exact h0
  rw [extract_header_eq_ok hm hp ht, hfield, traceId_from_hex_toHex32 h128, hsp2]

/-- C3: for every span context with non-zero 128-bit trace id, any 64-bit
span id, an explicit sampling decision (Sampled or NotSampled) and any
remote flag and trace state, decoding the encoded header yields the same
trace id, span id and decision (with `is_remote = true` and the empty
trace state). -/
theorem C3_round_trip (tid sid : Nat) (dec : SamplingDecision) (rem : Bool)
    (ts : List (String × String)) (h0 : tid ≠ 0) (h128 : tid < 2 ^ 128)
    (h64 : sid < 2 ^ 64)
    (hdec : dec = SamplingDecision.Sampled ∨ dec = SamplingDecision.NotSampled) :
    extract_header (inject_header (SpanContext.mk tid sid dec rem ts)) =
      Except.ok (SpanContext.mk tid sid dec true []) := by
  rcases hdec with h | h <;> subst h
  · have hs : inject_header (SpanContext.mk tid sid SamplingDecision.Sampled rem ts) =
        toHex32 tid ++ '/' :: (decRepr sid ++ ';' :: ['o', '=', '1']) := by
      simp [inject_header, SpanContext.is_deferred, SpanContext.is_sampled]
    rw [hs, extract_encode tid sid ['o', '=', '1'] h0 h128 h64 (by decide)]
    have hd : decisionOfSuffix (some ['o', '=', '1']) = SamplingDecision.Sampled := by decide
    rw [hd]
  · have hs : inject_header (SpanContext.mk tid sid SamplingDecision.NotSampled rem ts) =
        toHex32 tid ++ '/' :: (decRepr sid ++ ';' :: ['o', '=', '0']) := by
      simp [inject_header, SpanContext.is_deferred, SpanContext.is_sampled]
    rw [hs, extract_encode tid sid ['o', '=', '0'] h0 h128 h64 (by decide)]
    have hd : decisionOfSuffix (some ['o', '=', '0']) = SamplingDecision.NotSampled := by decide
    rw [hd]

/-- C3 witness: the round trip at trace id 1, span id 7, Sampled. -/
theorem C3_witness :
    (1 : Nat) ≠ 0 ∧ (1 : Nat) < 2 ^ 128 ∧ (7 : Nat) < 2 ^ 64 ∧
    extract_header (inject_header (SpanContext.mk 1 7 SamplingDecision.Sampled false [])) =
      Except.ok (SpanContext.mk 1 7 SamplingDecision.Sampled true []) :=
  ⟨by decide, by decide, by decide,
    C3_round_trip 1 7 SamplingDecision.Sampled false [] (by decide) (by decide) (by decide)
      (Or.inl rfl)⟩

/-! Claim C10. -/

/-- C10: for every header that decodes successfully and whose decimal
span-id field (the part of the remainder before the first `;`) consists of
decimal digits, inserting a `+` in front of that field still decodes
successfully, to the same span context — Rust's unsigned-integer parse
accepts one leading `+` sign. -/
theorem C10_plus_sign_span_id (h : List Char) (sc : SpanContext)
    (hok : extract_header h = Except.ok sc)
    (hdigits :
      ((splitFirst ';' ((splitFirst '/' (trim h)).2.getD [])).1).all isDecDigit = true) :
    extract_header ((splitFirst '/' (trim h)).1 ++ '/' :: '+' ::
      (splitFirst '/' (trim h)).2.getD []) = Except.ok sc := by
  obtain ⟨rest, hm, hp, htid, h0, hflags, hrem, hts⟩ := extract_header_ok_elim hok
  rw [hm] at hdigits
  rw [hm]
  simp only [Option.getD_some] at hdigits ⊢
  obtain ⟨hteq, hfslash⟩ := splitFirst_eq_some hm
  rcases traceId_from_hex_lt (splitFirst '/' (trim h)).1 with hz | ⟨hlen, hhex, -⟩
  · exact absurd (htid.symm.trans hz) h0
  · have hrne : rest ≠ [] := by
      intro he
      subst he
      rw [show parse_u64 (splitFirst ';' ([] : List Char)).1 = none from rfl] at hp
      exact Option.noConfusion hp
    have hs'trim : trim ((splitFirst '/' (trim h)).1 ++ '/' :: '+' :: rest) =
        (splitFirst '/' (trim h)).1 ++ '/' :: '+' :: rest := by
      apply trim_eq_self
      · intro c hc
        cases hfe : (splitFirst '/' (trim h)).1 with
        | nil => rw [hfe] at hlen; simp at hlen
        | cons a u =>
          rw [hfe, List.cons_append, List.head?_cons] at hc
          injection hc with hc
          subst hc
          refine isRustWs_eq_false_of_hex (List.all_eq_true.1 hhex a ?_)
          rw [hfe]
          exact List.mem_cons_self a u
      · intro c hc
        rw [List.getLast?_append_of_ne_nil _ (by simp)] at hc
        cases hre : rest with
        | nil => exact absurd hre hrne
        | cons r rs =>
          rw [hre, List.getLast?_cons_cons, List.getLast?_cons_cons] at hc
          have hlast : (trim h).getLast? = some c := by
            rw [hteq, hre, List.getLast?_append_of_ne_nil _ (by simp),
              List.getLast?_cons_cons]
            exact hc
          exact trim_getLast?_not_ws hlast
    have hsp1 := splitFirst_append ('+' :: rest) hfslash
    have hsp2 : splitFirst ';' ('+' :: rest) =
        ('+' :: (splitFirst ';' rest).1, (splitFirst ';' rest).2) :=
      splitFirst_cons_of_ne (by decide)
    have hm' : (splitFirst '/' (trim ((splitFirst '/' (trim h)).1 ++
        '/' :: '+' :: rest))).2 = some ('+' :: rest) := by
      rw [hs'trim, hsp1]
    have hf' : (splitFirst '/' (trim ((splitFirst '/' (trim h)).1 ++
        '/' :: '+' :: rest))).1 = (splitFirst '/' (trim h)).1 := by
      rw [hs'trim, hsp1]
    have hp'' : parse_u64 (splitFirst ';' ('+' :: rest)).1 = some sc.span_id := by
      rw [hsp2]
      exact parse_u64_plus_of_all_digits hdigits hp
    have ht' : traceId_from_hex (splitFirst '/' (trim ((splitFirst '/' (trim h)).1 ++
        '/' :: '+' :: rest))).1 ≠ 0 := by
      rw [hf', htid]
      exact h0
    rw [extract_header_eq_ok hm' hp'' ht', hf', htid, hsp2]
    rw [← hflags]
    cases sc with
    | mk t i fl r st =>
      simp only at hflags hrem hts ⊢
      rw [hrem, hts]

/-- C10 witness: prefixing the span-id field of
`105445aa7843bc8bf206b12000100000/7;o=1` with `+` decodes to the same
span context. -/
theorem C10_witness :
    extract_header "105445aa7843bc8bf206b12000100000/7;o=1".toList =
      Except.ok (SpanContext.mk 21705213860945948472365733417594126336 7
        SamplingDecision.Sampled true []) ∧
    ((splitFirst ';'
      ((splitFirst '/' (trim "105445aa7843bc8bf206b12000100000/7;o=1".toList)).2.getD
        [])).1).all isDecDigit = true ∧
    extract_header
        ((splitFirst '/' (trim "105445aa7843bc8bf206b12000100000/7;o=1".toList)).1 ++
          '/' :: '+' ::
          (splitFirst '/' (trim "105445aa7843bc8bf206b12000100000/7;o=1".toList)).2.getD
            []) =
      Except.ok (SpanContext.mk 21705213860945948472365733417594126336 7
        SamplingDecision.Sampled true []) :=
  ⟨by decide, by decide,
    C10_plus_sign_span_id "105445aa7843bc8bf206b12000100000/7;o=1".toList
      (SpanContext.mk 21705213860945948472365733417594126336 7
        SamplingDecision.Sampled true []) (by decide) (by decide)⟩

end Gcp
